import Mathlib

/-!
Verification of the signal-computation core of TradingBotTelegram.

Shallow embedding of the pure logic of `binance_lib.py` and
`bin_lib_adv.py`.  Numbers are modelled as rationals.  A kline (candle)
field that the Python code obtains via `float(kline[i])` is modelled as
an `Option ℚ`: `some q` when the conversion succeeds, `none` when it
raises (`ValueError` on a non-numeric string, `IndexError` on a short
row).  The network fetch `client.get_klines(..., limit=n)` returns the
`n` most recent candles of the available history, oldest first; it is
modelled by `fetchLast`, which takes the full available series as an
explicit argument.  A fetched current price (`get_binance_price_pb`)
is an `Option ℚ` argument.
-/

/-- One kline row.  Each field is the result of `float(...)` applied to
the corresponding raw entry: index 2 = high, 3 = low, 4 = close,
5 = volume.  `none` models a parse failure (raised exception). -/
structure Kline where
  high : Option ℚ
  low : Option ℚ
  close : Option ℚ
  volume : Option ℚ
deriving DecidableEq, Repr

/-- Model of `client.get_klines(symbol, interval="1d", limit=n)`:
the `n` most recent rows of the available history (all rows when fewer
than `n` are available), oldest first. -/
def fetchLast (available : List Kline) (limit : Int) : List Kline :=
  available.drop (available.length - limit.toNat)

/-- Model of the list comprehension `[float(kline[i]) for kline in klines]`:
returns all parsed values, or `none` when any row raises (the Python
exception propagates to the enclosing `except`, failing the whole
computation). -/
def parseAll (f : Kline → Option ℚ) : List Kline → Option (List ℚ)
  | [] => some []
  | k :: ks =>
    match f k, parseAll f ks with
    | some q, some qs => some (q :: qs)
    | _, _ => none

/-- `get_moving_averages` (binance_lib.py lines 77-126) with the network
fetch replaced by `fetchLast available long_period`.  Returns
`(short_sma, long_sma)` or `(none, none)` on invalid periods,
insufficient history, or a close-price parse failure (the raised
exception is caught at line 124 and turned into `(None, None)`). -/
def get_moving_averages (available : List Kline) (short_period long_period : Int) :
    Option ℚ × Option ℚ :=
  -- line 91: validazione base dei periodi
  if short_period ≤ 0 ∨ long_period ≤ 0 ∨ short_period > long_period then
    (none, none)
  else
    -- line 101: klines = client.get_klines(..., limit=long_period)
    let klines := fetchLast available long_period
    -- line 104: `if not klines or len(klines) < long_period` (an empty
    -- list also has length < long_period here since long_period > 0)
    if (klines.length : Int) < long_period then
      (none, none)
    else
      -- line 110: closing_prices = [float(kline[4]) for kline in klines]
      match parseAll Kline.close klines with
      | none => (none, none)
      | some closing_prices =>
        -- line 113: long_sma = sum(closing_prices) / len(closing_prices)
        let long_sma := closing_prices.sum / (closing_prices.length : ℚ)
        -- line 117: short_period_prices = closing_prices[-short_period:]
        let short_period_prices :=
          closing_prices.drop (closing_prices.length - short_period.toNat)
        -- line 120: short_sma = sum(...) / len(...)
        let short_sma := short_period_prices.sum / (short_period_prices.length : ℚ)
        (some short_sma, some long_sma)

/-- `generate_crossover_signal` (binance_lib.py lines 129-171). -/
def generate_crossover_signal (short_ma long_ma : Option ℚ)
    (proximity_threshold_percent : ℚ) : String :=
  match short_ma, long_ma with
  | none, _ => "Dati MA non disponibili"
  | _, none => "Dati MA non disponibili"
  | some s, some l =>
    if l = 0 then "Dati MA non validi (MA lunga = 0)"
    else
      let difference := s - l
      let relative_difference_percent := (|difference| / l) * 100
      if relative_difference_percent > proximity_threshold_percent then
        if difference > 0 then "Rialzista" else "Ribassista"
      else "Hold"

/-- One iteration of the extremum loop of `generate_breakout_signal`
(binance_lib.py lines 212-224).  The accumulator is
`(highest_high, lowest_low)`; `lowest_low` lives in `WithTop ℚ` because
the source initialises it with `float(+inf)`.  When either
`float(kline[2])` or `float(kline[3])` raises, the row is skipped
(the `except` at line 221 does `continue`) and the accumulator is
unchanged. -/
def stepExtreme (acc : ℚ × WithTop ℚ) (k : Kline) : ℚ × WithTop ℚ :=
  match k.high, k.low with
  | some high, some low =>
    (if high > acc.1 then high else acc.1,
     if (low : WithTop ℚ) < acc.2 then (low : WithTop ℚ) else acc.2)
  | _, _ => acc

/-- The whole extremum scan of `generate_breakout_signal`:
`highest_high` starts at `0.0` (line 209), `lowest_low` at `+inf`
(line 210). -/
def foldExtremes (klines : List Kline) : ℚ × WithTop ℚ :=
  klines.foldl stepExtreme (0, ⊤)

/-- The final comparison of `generate_breakout_signal`
(binance_lib.py lines 238-244). -/
def classify_breakout (current_price highest_high : ℚ) (lowest_low : WithTop ℚ) :
    String :=
  if current_price > highest_high then "Breakout Rialzista"
  else if (current_price : WithTop ℚ) < lowest_low then "Breakout Ribassista"
  else "Consolidamento"

/-- `generate_breakout_signal` (binance_lib.py lines 174-249) with the
two network calls replaced by the `available` series and the
`current_price` argument. -/
def generate_breakout_signal (available : List Kline) (current_price : Option ℚ)
    (lookback_period : Int) : String :=
  -- line 188: validazione del lookback period
  if lookback_period ≤ 0 then "Errore: Il lookback period deve essere positivo."
  else
    -- line 197: klines = client.get_klines(..., limit=lookback_period)
    let klines := fetchLast available lookback_period
    -- line 201: `if not klines or len(klines) < lookback_period`
    if (klines.length : Int) < lookback_period then
      "Dati storici insufficienti per breakout"
    else
      let e := foldExtremes klines
      -- line 228: current_price = get_binance_price_pb(symbol)
      match current_price with
      | none => "Errore nel recupero prezzo attuale per breakout"
      | some p => classify_breakout p e.1 e.2

/-- `get_average_historical_volume` (bin_lib_adv.py lines 66-112) with
the fetch replaced by `fetchLast available (lookback_period + 1)`.
Note: when the average is successfully computed, line 105 executes
`print("Candele analizzate: " + len(closing_volumes))`, which
concatenates a `str` with an `int` and raises `TypeError` before the
`return average_volume` at line 107; the `except Exception` handler at
line 109 then returns `None`.  The success branch therefore also
evaluates to `none`. -/
def get_average_historical_volume (available : List Kline) (lookback_period : Int) :
    Option ℚ :=
  -- line 77: lookback_period <= 0
  if lookback_period ≤ 0 then none
  else
    -- line 87: klines = client.get_klines(..., limit=lookback_period + 1)
    let klines := fetchLast available (lookback_period + 1)
    -- line 90: `if not klines or len(klines) < lookback_period + 1`
    if (klines.length : Int) < lookback_period + 1 then none
    else
      -- line 100: closing_volumes = [float(kline[5]) for kline in klines[:-1]]
      match parseAll Kline.volume klines.dropLast with
      | none => none
      | some closing_volumes =>
        -- line 103 computes `average_volume`, but line 105 raises
        -- TypeError (str + int) before it can be returned, so the
        -- handler at line 109 yields None.
        let _average_volume := closing_volumes.sum / (closing_volumes.length : ℚ)
        none

/-- `get_average_historical_volume` as its docstring and the comments
around it describe it ("Returns: Il volume medio storico come float, o
None in caso di errore o dati insufficienti"): identical control flow,
but actually returning the `average_volume` computed at line 103,
i.e. without the `TypeError` raised by the string concatenation at
line 105. -/
def get_average_historical_volume_intended (available : List Kline)
    (lookback_period : Int) : Option ℚ :=
  if lookback_period ≤ 0 then none
  else
    let klines := fetchLast available (lookback_period + 1)
    if (klines.length : Int) < lookback_period + 1 then none
    else
      match parseAll Kline.volume klines.dropLast with
      | none => none
      | some closing_volumes =>
        some (closing_volumes.sum / (closing_volumes.length : ℚ))

/-- `generate_volume_signal` (bin_lib_adv.py lines 116-152). -/
def generate_volume_signal (current_volume avg_volume : Option ℚ)
    (high_threshold_factor low_threshold_factor : ℚ) : String :=
  match current_volume, avg_volume with
  | none, _ => "Dati Volume non disponibili"
  | _, none => "Dati Volume non disponibili"
  | some cv, some av =>
    -- line 137: avg_volume <= 0
    if av ≤ 0 then "STABILE"
    else if cv > av * high_threshold_factor then "RIALZISTA"
    else if cv < av * low_threshold_factor then "RIBASSISTA"
    else "STABILE"

/-- A row is well formed for the extremum scan when both its high and
low fields parse. -/
def wellFormedB (k : Kline) : Bool :=
  k.high.isSome && k.low.isSome

/-- Number of rows of a window that the extremum scan skips (rows on
which the parse of high or low raises). -/
def countMalformed (klines : List Kline) : Nat :=
  (klines.filter (fun k => !wellFormedB k)).length

/-- A candle whose only parsable field is its close; used to build
synthetic close-price series. -/
def closeKline (q : ℚ) : Kline := ⟨none, none, some q, none⟩

/-- Modelled from the wording of claim C2, for comparison with the
source function: a variant of `get_moving_averages` that computes both
SMAs only from closed values, i.e. drops the single most recent (open)
element of the fetched window before taking either mean. -/
def get_moving_averages_excluding_open (available : List Kline)
    (short_period long_period : Int) : Option ℚ × Option ℚ :=
  if short_period ≤ 0 ∨ long_period ≤ 0 ∨ short_period > long_period then
    (none, none)
  else
    let klines := fetchLast available long_period
    if (klines.length : Int) < long_period then
      (none, none)
    else
      match parseAll Kline.close klines with
      | none => (none, none)
      | some closing_prices =>
        let closed := closing_prices.dropLast
        let long_sma := closed.sum / (closed.length : ℚ)
        let short_period_prices := closed.drop (closed.length - short_period.toNat)
        let short_sma := short_period_prices.sum / (short_period_prices.length : ℚ)
        (some short_sma, some long_sma)

/-- Three daily candles with numeric volumes 10, 20, 30; the last one is
the currently open period. -/
def c1Available : List Kline :=
  [⟨none, none, none, some 10⟩, ⟨none, none, none, some 20⟩,
   ⟨none, none, none, some 30⟩]

/-- Three daily candles with closes 2, 2, 8; the last one is the
currently open period. -/
def c2Available : List Kline := [closeKline 2, closeKline 2, closeKline 8]

/-- A candle whose high field fails to parse. -/
def c3Bad : Kline := ⟨none, some 3, none, none⟩

/-- A lookback window of 5 candles, one of which is malformed. -/
def c3Rows5 : List Kline :=
  [⟨some 5, some 2, none, none⟩, ⟨some 9, some 1, none, none⟩,
   ⟨some 7, some 3, none, none⟩, c3Bad, ⟨some 6, some 4, none, none⟩]

/-- The 4 well-formed candles of `c3Rows5`. -/
def c3Rows4 : List Kline :=
  [⟨some 5, some 2, none, none⟩, ⟨some 9, some 1, none, none⟩,
   ⟨some 7, some 3, none, none⟩, ⟨some 6, some 4, none, none⟩]

/-- A candle whose close field fails to parse. -/
def c8Bad : Kline := ⟨some 1, some 1, none, none⟩

def c8Available : List Kline := [closeKline 5, c8Bad]

/-- A window in which every row fails to parse its high or its low. -/
def c9Available : List Kline :=
  [⟨none, some 1, none, none⟩, ⟨some 2, none, none, none⟩,
   ⟨none, none, none, none⟩]

def c10Available : List Kline := [closeKline 2, closeKline 4, closeKline 6]

/-! ### Helper lemmas about parsing and fetching -/

lemma parseAll_none_of_mem (f : Kline → Option ℚ) :
    ∀ (l : List Kline) (k : Kline), k ∈ l → f k = none → parseAll f l = none := by
  intro l
  induction l with
  | nil => intro k hk; exact absurd hk (List.not_mem_nil k)
  | cons k0 ks ih =>
    intro k hk hfk
    rcases List.mem_cons.1 hk with rfl | hmem
    · simp only [parseAll, hfk]
    · simp only [parseAll, ih k hmem hfk]
      cases f k0 <;> rfl

lemma parseAll_length (f : Kline → Option ℚ) :
    ∀ (l : List Kline) (qs : List ℚ), parseAll f l = some qs → qs.length = l.length := by
  intro l
  induction l with
  | nil =>
    intro qs h
    simp only [parseAll, Option.some.injEq] at h
    subst h; rfl
  | cons k ks ih =>
    intro qs h
    simp only [parseAll] at h
    cases hfk : f k with
    | none => rw [hfk] at h; exact absurd h (by simp)
    | some q =>
      cases hps : parseAll f ks with
      | none => rw [hfk, hps] at h; exact absurd h (by simp)
      | some qs0 =>
        rw [hfk, hps] at h
        simp only [Option.some.injEq] at h
        subst h
        simp [ih qs0 hps]

lemma parseAll_close_map_closeKline (qs : List ℚ) :
    parseAll Kline.close (qs.map closeKline) = some qs := by
  induction qs with
  | nil => rfl
  | cons q qs ih => simp only [List.map_cons, parseAll, closeKline, ih]

lemma fetchLast_length (available : List Kline) (limit : Int)
    (h : limit.toNat ≤ available.length) :
    (fetchLast available limit).length = limit.toNat := by
  simp only [fetchLast, List.length_drop]
  omega

lemma fetchLast_of_length_eq (available : List Kline) (limit : Int)
    (h : (available.length : Int) = limit) :
    fetchLast available limit = available := by
  have h0 : available.length - limit.toNat = 0 := by omega
  simp only [fetchLast, h0, List.drop_zero]

lemma mem_of_getLast?_eq {α : Type} (c : α) :
    ∀ (l : List α), l.getLast? = some c → c ∈ l := by
  intro l
  induction l with
  | nil => intro hc; exact absurd hc (by simp)
  | cons x xs ih =>
    intro hc
    cases xs with
    | nil =>
      simp only [List.getLast?_singleton, Option.some.injEq] at hc
      subst hc; exact List.mem_singleton_self x
    | cons y ys =>
      rw [List.getLast?_cons_cons] at hc
      exact List.mem_cons_of_mem x (ih hc)

lemma getLast?_mem_drop {α : Type} (c : α) :
    ∀ (l : List α) (k : Nat), l.getLast? = some c → k < l.length → c ∈ l.drop k := by
  intro l
  induction l with
  | nil => intro k hc; exact absurd hc (by simp)
  | cons x xs ih =>
    intro k hc hk
    cases k with
    | zero => rw [List.drop_zero]; exact mem_of_getLast?_eq c _ hc
    | succ k0 =>
      rw [List.drop_succ_cons]
      cases xs with
      | nil => simp at hk
      | cons y ys =>
        rw [List.getLast?_cons_cons] at hc
        exact ih k0 hc (by simpa using hk)

/-! ### Helper lemmas about the extremum scan -/

lemma stepExtreme_eval (a : ℚ × WithTop ℚ) (h l : ℚ) (c v : Option ℚ) :
    stepExtreme a ⟨some h, some l, c, v⟩ =
      (if h > a.1 then h else a.1,
       if (l : WithTop ℚ) < a.2 then (l : WithTop ℚ) else a.2) := rfl

lemma stepExtreme_skip (a : ℚ × WithTop ℚ) (k : Kline)
    (hk : wellFormedB k = false) : stepExtreme a k = a := by
  rcases k with ⟨kh, kl, kc, kv⟩
  cases kh <;> cases kl <;> first
    | rfl
    | simp [wellFormedB] at hk

lemma wellFormedB_eq_false (k : Kline) (h : k.high = none ∨ k.low = none) :
    wellFormedB k = false := by
  rcases h with h | h <;> simp [wellFormedB, h]

lemma foldl_stepExtreme_mono (rows : List Kline) :
    ∀ a : ℚ × WithTop ℚ,
      a.1 ≤ (rows.foldl stepExtreme a).1 ∧ (rows.foldl stepExtreme a).2 ≤ a.2 := by
  induction rows with
  | nil => intro a; exact ⟨le_refl _, le_refl _⟩
  | cons k ks ih =>
    intro a
    rw [List.foldl_cons]
    refine ⟨le_trans ?_ (ih (stepExtreme a k)).1, le_trans (ih (stepExtreme a k)).2 ?_⟩
    · rcases k with ⟨kh, kl, kc, kv⟩
      cases kh with
      | none => exact le_refl _
      | some h0 =>
        cases kl with
        | none => exact le_refl _
        | some l0 =>
          rw [stepExtreme_eval]
          dsimp only
          split
          · next hgt => exact le_of_lt hgt
          · exact le_refl _
    · rcases k with ⟨kh, kl, kc, kv⟩
      cases kh with
      | none => exact le_refl _
      | some h0 =>
        cases kl with
        | none => exact le_refl _
        | some l0 =>
          rw [stepExtreme_eval]
          dsimp only
          split
          · next hlt => exact le_of_lt hlt
          · exact le_refl _

lemma foldl_stepExtreme_bounds :
    ∀ (rows : List Kline) (a : ℚ × WithTop ℚ) (k : Kline), k ∈ rows →
      ∀ h l : ℚ, k.high = some h → k.low = some l →
      h ≤ (rows.foldl stepExtreme a).1 ∧
        (rows.foldl stepExtreme a).2 ≤ (l : WithTop ℚ) := by
  intro rows
  induction rows with
  | nil => intro a k hk; exact absurd hk (List.not_mem_nil k)
  | cons k0 ks ih =>
    intro a k hk h l hh hl
    rw [List.foldl_cons]
    rcases List.mem_cons.1 hk with rfl | hmem
    · have hstep : h ≤ (stepExtreme a k).1 ∧ (stepExtreme a k).2 ≤ (l : WithTop ℚ) := by
        rcases k with ⟨kh, kl, kc, kv⟩
        have hh0 : kh = some h := hh
        have hl0 : kl = some l := hl
        subst hh0; subst hl0
        rw [stepExtreme_eval]
        constructor
        · dsimp only
          split
          · exact le_refl h
          · next hng => exact not_lt.1 hng
        · dsimp only
          split
          · exact le_refl _
          · next hng => exact not_lt.1 hng
      exact ⟨le_trans hstep.1 (foldl_stepExtreme_mono ks (stepExtreme a k)).1,
        le_trans (foldl_stepExtreme_mono ks (stepExtreme a k)).2 hstep.2⟩
    · exact ih (stepExtreme a k0) k hmem h l hh hl

lemma foldl_stepExtreme_fst_attained :
    ∀ (rows : List Kline) (a : ℚ × WithTop ℚ),
      (rows.foldl stepExtreme a).1 = a.1 ∨
        ∃ k ∈ rows, k.high = some ((rows.foldl stepExtreme a).1) := by
  intro rows
  induction rows with
  | nil => intro a; left; rfl
  | cons k0 ks ih =>
    intro a
    rw [List.foldl_cons]
    rcases ih (stepExtreme a k0) with heq | ⟨k, hk, hkh⟩
    · rw [heq]
      rcases k0 with ⟨kh, kl, kc, kv⟩
      cases kh with
      | none => left; rfl
      | some h0 =>
        cases kl with
        | none => left; rfl
        | some l0 =>
          rw [stepExtreme_eval]
          dsimp only
          split
          · right
            exact ⟨⟨some h0, some l0, kc, kv⟩, List.mem_cons_self _ _, rfl⟩
          · left; rfl
    · right
      exact ⟨k, List.mem_cons_of_mem k0 hk, hkh⟩

lemma foldl_stepExtreme_snd_attained :
    ∀ (rows : List Kline) (a : ℚ × WithTop ℚ),
      (rows.foldl stepExtreme a).2 = a.2 ∨
        ∃ k ∈ rows, ∃ l : ℚ, k.low = some l ∧
          (rows.foldl stepExtreme a).2 = (l : WithTop ℚ) := by
  intro rows
  induction rows with
  | nil => intro a; left; rfl
  | cons k0 ks ih =>
    intro a
    rw [List.foldl_cons]
    rcases ih (stepExtreme a k0) with heq | ⟨k, hk, l, hkl, hval⟩
    · rw [heq]
      rcases k0 with ⟨kh, kl, kc, kv⟩
      cases kh with
      | none => left; rfl
      | some h0 =>
        cases kl with
        | none => left; rfl
        | some l0 =>
          rw [stepExtreme_eval]
          dsimp only
          split
          · right
            exact ⟨⟨some h0, some l0, kc, kv⟩, List.mem_cons_self _ _, l0, rfl, rfl⟩
          · left; rfl
    · right
      exact ⟨k, List.mem_cons_of_mem k0 hk, l, hkl, hval⟩

lemma foldl_stepExtreme_filter :
    ∀ (rows : List Kline) (a : ℚ × WithTop ℚ),
      (rows.filter wellFormedB).foldl stepExtreme a = rows.foldl stepExtreme a := by
  intro rows
  induction rows with
  | nil => intro a; rfl
  | cons k ks ih =>
    intro a
    cases hwk : wellFormedB k with
    | true =>
      rw [List.filter_cons_of_pos hwk, List.foldl_cons, List.foldl_cons, ih]
    | false =>
      rw [List.filter_cons_of_neg (by simp [hwk]), List.foldl_cons, ih,
        stepExtreme_skip a k hwk]

lemma foldl_stepExtreme_const :
    ∀ (rows : List Kline) (a : ℚ × WithTop ℚ),
      (∀ k ∈ rows, wellFormedB k = false) → rows.foldl stepExtreme a = a := by
  intro rows
  induction rows with
  | nil => intro a _; rfl
  | cons k ks ih =>
    intro a hall
    rw [List.foldl_cons, stepExtreme_skip a k (hall k (List.mem_cons_self k ks))]
    exact ih a fun k0 hk0 => hall k0 (List.mem_cons_of_mem k hk0)

/-! ### Evaluation lemmas for the embedded functions -/

/-- Success-branch evaluation of `get_moving_averages`: with valid
periods, enough candles, and all closes parsing to `cp`, the result is
the pair of means of the trailing `short_period` closes and of all the
fetched closes. -/
lemma gma_eval (available : List Kline) (short_period long_period : Int) (cp : List ℚ)
    (h1 : 0 < short_period) (h2 : short_period ≤ long_period)
    (h3 : ¬ ((fetchLast available long_period).length : Int) < long_period)
    (h4 : parseAll Kline.close (fetchLast available long_period) = some cp) :
    get_moving_averages available short_period long_period =
      (some ((cp.drop (cp.length - short_period.toNat)).sum /
          ((cp.drop (cp.length - short_period.toNat)).length : ℚ)),
       some (cp.sum / (cp.length : ℚ))) := by
  simp only [get_moving_averages, h4]
  rw [if_neg (by omega), if_neg h3]

/-- Evaluation of `generate_breakout_signal` when the lookback is valid
and enough candles are available: the result is the classification of
the current price against the scanned extremes. -/
lemma gbs_eval (available : List Kline) (p : ℚ) (lookback_period : Int)
    (h1 : 0 < lookback_period)
    (h2 : ¬ ((fetchLast available lookback_period).length : Int) < lookback_period) :
    generate_breakout_signal available (some p) lookback_period =
      classify_breakout p (foldExtremes (fetchLast available lookback_period)).1
        (foldExtremes (fetchLast available lookback_period)).2 := by
  simp only [generate_breakout_signal]
  rw [if_neg (by omega), if_neg h2]

/-- The `TypeError` raised at line 105 of bin_lib_adv.py makes
`get_average_historical_volume` return `None` on every input. -/
lemma gavh_eq_none (available : List Kline) (lookback_period : Int) :
    get_average_historical_volume available lookback_period = none := by
  simp only [get_average_historical_volume]
  split
  · rfl
  · split
    · rfl
    · split <;> rfl

/-! ### Claim theorems -/

/-- Claim C1 (code bug): for a fetch returning `lookbackPeriod + 1`
candles with numeric volumes (here volumes 10, 20, 30 and
`lookbackPeriod = 2`), the claim says the function returns the
arithmetic mean (15) of the two closed-candle volumes; the code instead
raises `TypeError` at the print of line 105 (`str + int` concatenation)
after computing the average, so the handler returns `None`.  The
documented behaviour, modelled by
`get_average_historical_volume_intended`, does return the mean. -/
theorem C1_avg_volume_bug :
    get_average_historical_volume c1Available 2 = none ∧
    get_average_historical_volume_intended c1Available 2 = some 15 := by
  constructor
  · exact gavh_eq_none c1Available 2
  · simp only [get_average_historical_volume_intended, fetchLast, parseAll, c1Available]
    norm_num

/-- Claim C2 (counterexample): on the series with closes 2, 2, 8
(last one the open candle), `short_period = 1`, `long_period = 3`, the
source computes (8, 4) — both means include the open close 8 — while
the behaviour the claim describes (dropping the open element from both
means) would give (2, 2). -/
theorem C2_counterexample :
    get_moving_averages c2Available 1 3 = (some 8, some 4) ∧
    get_moving_averages_excluding_open c2Available 1 3 = (some 2, some 2) ∧
    get_moving_averages c2Available 1 3 ≠
      get_moving_averages_excluding_open c2Available 1 3 := by
  have e1 : get_moving_averages c2Available 1 3 = (some 8, some 4) := by
    simp only [get_moving_averages, fetchLast, parseAll, c2Available, closeKline]
    norm_num
  have e2 : get_moving_averages_excluding_open c2Available 1 3 = (some 2, some 2) := by
    simp only [get_moving_averages_excluding_open, fetchLast, parseAll, c2Available,
      closeKline]
    norm_num
  refine ⟨e1, e2, ?_⟩
  rw [e1, e2]
  simp

/-- Claim C2 (amended): `get_moving_averages` computes the long SMA as
the mean of all `long_period` fetched closes and the short SMA as the
mean of the trailing `short_period` closes of the same window; the last
(possibly still open) element is included in both windows, not
excluded — in particular the last parsed close belongs to the short
window. -/
theorem C2_sma_includes_open (available : List Kline)
    (short_period long_period : Int) (cp : List ℚ) (c : ℚ)
    (h1 : 0 < short_period) (h2 : short_period ≤ long_period)
    (h3 : long_period ≤ (available.length : Int))
    (h4 : parseAll Kline.close (fetchLast available long_period) = some cp)
    (h5 : cp.getLast? = some c) :
    get_moving_averages available short_period long_period =
      (some ((cp.drop (cp.length - short_period.toNat)).sum /
          ((cp.drop (cp.length - short_period.toNat)).length : ℚ)),
       some (cp.sum / (cp.length : ℚ))) ∧
    c ∈ cp.drop (cp.length - short_period.toNat) ∧ c ∈ cp := by
  have hfl : (fetchLast available long_period).length = long_period.toNat :=
    fetchLast_length _ _ (by omega)
  have h3n : ¬ ((fetchLast available long_period).length : Int) < long_period := by
    rw [hfl]; omega
  refine ⟨gma_eval available short_period long_period cp h1 h2 h3n h4, ?_,
    mem_of_getLast?_eq c cp h5⟩
  apply getLast?_mem_drop c cp _ h5
  have hcl : cp.length = long_period.toNat := by
    rw [parseAll_length Kline.close _ cp h4, hfl]
  omega

/-- Witness for C2 (amended) at the concrete series with closes
2, 2, 8, `short_period = 1`, `long_period = 3`. -/
theorem C2_sma_includes_open_witness :
    get_moving_averages c2Available 1 3 = (some 8, some 4) ∧
    (8 : ℚ) ∈ ([2, 2, 8] : List ℚ) := by
  have h := C2_sma_includes_open c2Available 1 3 [2, 2, 8] 8
    (by norm_num) (by norm_num) (by simp [c2Available]) rfl rfl
  refine ⟨?_, h.2.2⟩
  rw [h.1]
  norm_num [List.drop]

/-- Claim C3 (counterexample): the skip count is not observable to the
caller.  The 5-row window `c3Rows5` (one malformed row, skip count 1)
and the 4-row window `c3Rows4` (skip count 0) produce identical
extremes and identical breakout signals, so no caller can recover the
number of skipped rows from what the function returns. -/
theorem C3_counterexample :
    countMalformed c3Rows5 = 1 ∧ countMalformed c3Rows4 = 0 ∧
    foldExtremes c3Rows5 = foldExtremes c3Rows4 ∧
    generate_breakout_signal c3Rows5 (some 100) 5 =
      generate_breakout_signal c3Rows4 (some 100) 4 := by
  refine ⟨by decide, by decide, by decide, by decide⟩

/-- Claim C3 (amended): the extremum scan skips exactly the malformed
rows — folding a window equals folding its well-formed rows only — and
returns the maximum high and minimum low over the remaining well-formed
rows (every well-formed high is bounded by the first component, every
well-formed low bounds the second; each component is either its
sentinel, 0 or +inf, or attained by some row of the window).  On the
5-row window with one unparseable row the result (9, 1) is the extremes
of the remaining 4 rows, with 1 malformed row — but the skip count is
only printed, not part of the returned value. -/
theorem C3_breakout_extremes :
    (∀ rows : List Kline, foldExtremes rows = foldExtremes (rows.filter wellFormedB)) ∧
    (∀ (rows : List Kline) (k : Kline), k ∈ rows → ∀ h l : ℚ,
        k.high = some h → k.low = some l →
        h ≤ (foldExtremes rows).1 ∧ (foldExtremes rows).2 ≤ (l : WithTop ℚ)) ∧
    (∀ rows : List Kline, (foldExtremes rows).1 = 0 ∨
        ∃ k ∈ rows, k.high = some ((foldExtremes rows).1)) ∧
    (∀ rows : List Kline, (foldExtremes rows).2 = ⊤ ∨
        ∃ k ∈ rows, ∃ l : ℚ, k.low = some l ∧
          (foldExtremes rows).2 = (l : WithTop ℚ)) ∧
    (foldExtremes c3Rows5 = (9, ((1 : ℚ) : WithTop ℚ)) ∧
      countMalformed c3Rows5 = 1) := by
  refine ⟨fun rows => (foldl_stepExtreme_filter rows (0, ⊤)).symm,
    fun rows k hk h l hh hl => foldl_stepExtreme_bounds rows (0, ⊤) k hk h l hh hl,
    fun rows => foldl_stepExtreme_fst_attained rows (0, ⊤),
    fun rows => foldl_stepExtreme_snd_attained rows (0, ⊤),
    by decide, by decide⟩

/-- Witness for C3 (amended): the well-formed first row of `c3Rows5`
bounds the computed extremes. -/
theorem C3_breakout_extremes_witness :
    (5 : ℚ) ≤ (foldExtremes c3Rows5).1 ∧
    (foldExtremes c3Rows5).2 ≤ ((2 : ℚ) : WithTop ℚ) :=
  C3_breakout_extremes.2.1 c3Rows5 ⟨some 5, some 2, none, none⟩
    (by simp [c3Rows5]) 5 2 rfl rfl

/-- Claim C4: for any threshold `t ≥ 0`, the crossover classifier
returns the unavailable label when either mean is missing, the
invalid-MA label when the long mean is 0, "Hold" when the relative
difference does not exceed `t`, "Rialzista" when it exceeds `t` and the
short mean is above the long one, "Ribassista" when it exceeds `t`
otherwise; feeding equal nonzero means returns "Hold". -/
theorem C4_crossover_classification (t : ℚ) (ht : 0 ≤ t) :
    (∀ l : Option ℚ, generate_crossover_signal none l t = "Dati MA non disponibili") ∧
    (∀ s : Option ℚ, generate_crossover_signal s none t = "Dati MA non disponibili") ∧
    (∀ s : ℚ, generate_crossover_signal (some s) (some 0) t =
      "Dati MA non validi (MA lunga = 0)") ∧
    (∀ s l : ℚ, l ≠ 0 → |s - l| / l * 100 ≤ t →
      generate_crossover_signal (some s) (some l) t = "Hold") ∧
    (∀ s l : ℚ, l ≠ 0 → |s - l| / l * 100 > t → s > l →
      generate_crossover_signal (some s) (some l) t = "Rialzista") ∧
    (∀ s l : ℚ, l ≠ 0 → |s - l| / l * 100 > t → ¬ s > l →
      generate_crossover_signal (some s) (some l) t = "Ribassista") ∧
    (∀ x : ℚ, x ≠ 0 → generate_crossover_signal (some x) (some x) t = "Hold") := by
  refine ⟨fun l => ?_, fun s => ?_, fun s => ?_, fun s l hl hle => ?_,
    fun s l hl hgt hsl => ?_, fun s l hl hgt hns => ?_, fun x hx => ?_⟩
  · cases l <;> rfl
  · cases s <;> rfl
  · simp only [generate_crossover_signal]
    rw [if_pos trivial]
  · simp only [generate_crossover_signal]
    rw [if_neg hl, if_neg (not_lt.2 hle)]
  · simp only [generate_crossover_signal]
    rw [if_neg hl, if_pos hgt, if_pos (sub_pos.2 hsl)]
  · simp only [generate_crossover_signal]
    rw [if_neg hl, if_pos hgt, if_neg (not_lt.2 (sub_nonpos.2 (not_lt.1 hns)))]
  · simp only [generate_crossover_signal]
    rw [if_neg hx,
      if_neg (by rw [sub_self, abs_zero, zero_div, zero_mul]; exact not_lt.2 ht)]

/-- Witness for C4 at the spec example: means 105 and 100 with
threshold 0.5 classify as "Rialzista". -/
theorem C4_crossover_classification_witness :
    generate_crossover_signal (some 105) (some 100) (1/2) = "Rialzista" := by
  have h := C4_crossover_classification (1/2) (by norm_num)
  refine h.2.2.2.2.1 105 100 (by norm_num) ?_ (by norm_num)
  rw [show (105 : ℚ) - 100 = 5 by norm_num, abs_of_pos (by norm_num : (0:ℚ) < 5)]
  norm_num

/-- Claim C5: the breakout classification is bullish exactly when the
current price strictly exceeds the highest high, bearish exactly when
it does not and the price is strictly below the lowest low, and
"Consolidamento" otherwise; a price exactly equal to the highest high
(with the lowest low not above it) yields "Consolidamento", never the
bullish label. -/
theorem C5_breakout_strict (p hh : ℚ) (ll : WithTop ℚ) :
    (classify_breakout p hh ll = "Breakout Rialzista" ↔ p > hh) ∧
    (classify_breakout p hh ll = "Breakout Ribassista" ↔
      p ≤ hh ∧ (p : WithTop ℚ) < ll) ∧
    (p ≤ hh → ll ≤ (p : WithTop ℚ) → classify_breakout p hh ll = "Consolidamento") ∧
    (ll ≤ (hh : WithTop ℚ) → classify_breakout hh hh ll = "Consolidamento") := by
  have hcons : ll ≤ (hh : WithTop ℚ) → classify_breakout hh hh ll = "Consolidamento" := by
    intro hll
    simp only [classify_breakout]
    rw [if_neg (lt_irrefl hh), if_neg (not_lt.2 hll)]
  by_cases h1 : p > hh
  · have hc : classify_breakout p hh ll = "Breakout Rialzista" := by
      simp only [classify_breakout]
      rw [if_pos h1]
    refine ⟨⟨fun _ => h1, fun _ => hc⟩,
      ⟨fun hb => ?_, fun hb => absurd h1 (not_lt.2 hb.1)⟩,
      fun hle _ => absurd h1 (not_lt.2 hle), hcons⟩
    rw [hc] at hb
    exact absurd hb (by decide)
  · by_cases h2 : (p : WithTop ℚ) < ll
    · have hc : classify_breakout p hh ll = "Breakout Ribassista" := by
        simp only [classify_breakout]
        rw [if_neg h1, if_pos h2]
      refine ⟨⟨fun hb => ?_, fun hlt => absurd hlt h1⟩,
        ⟨fun _ => ⟨not_lt.1 h1, h2⟩, fun _ => hc⟩,
        fun _ hle => absurd h2 (not_lt.2 hle), hcons⟩
      rw [hc] at hb
      exact absurd hb (by decide)
    · have hc : classify_breakout p hh ll = "Consolidamento" := by
        simp only [classify_breakout]
        rw [if_neg h1, if_neg h2]
      refine ⟨⟨fun hb => ?_, fun hlt => absurd hlt h1⟩,
        ⟨fun hb => ?_, fun hb => absurd hb.2 h2⟩, fun _ _ => hc, hcons⟩
      · rw [hc] at hb
        exact absurd hb (by decide)
      · rw [hc] at hb
        exact absurd hb (by decide)

/-- Witness for C5 at the strict-inequality boundary: price 5 equal to
the highest high 5, lowest low 3, classifies as "Consolidamento". -/
theorem C5_breakout_strict_witness :
    classify_breakout 5 5 ((3 : ℚ) : WithTop ℚ) = "Consolidamento" :=
  (C5_breakout_strict 5 5 ((3 : ℚ) : WithTop ℚ)).2.2.2
    (WithTop.coe_le_coe.2 (by norm_num))

/-- With a positive average, the volume classifier reduces to the
two-threshold comparison chain of lines 142-152. -/
lemma gvs_eval_pos (cv av hf lf : ℚ) (hav : 0 < av) :
    generate_volume_signal (some cv) (some av) hf lf =
      if cv > av * hf then "RIALZISTA"
      else if cv < av * lf then "RIBASSISTA"
      else "STABILE" := by
  simp only [generate_volume_signal]
  rw [if_neg (not_le.2 hav)]

/-- Claim C6 (counterexample): the claim says the low-volume label is
returned iff `currentVolume < avgVolume * lowThresholdFactor`; with
overlapping thresholds (h = 1/2, l = 2) and volume 60 against average
100, the strict low condition 60 < 200 holds, yet the code returns the
high label because the high test is checked first. -/
theorem C6_counterexample :
    generate_volume_signal (some 60) (some 100) (1/2) 2 = "RIALZISTA" ∧
    (60 : ℚ) < 100 * 2 ∧
    generate_volume_signal (some 60) (some 100) (1/2) 2 ≠ "RIBASSISTA" := by
  have e1 : generate_volume_signal (some 60) (some 100) (1/2) 2 = "RIALZISTA" := by
    simp only [generate_volume_signal]
    norm_num
  refine ⟨e1, by norm_num, ?_⟩
  rw [e1]
  decide

/-- Claim C6 (amended): the volume classifier returns the unavailable
label when either input is missing and "STABILE" when the average is
not positive; with a positive average it returns the high label iff the
current volume strictly exceeds `avg * highFactor`, the low label iff
it does not and is strictly below `avg * lowFactor` (the high test
takes precedence when the thresholds overlap), and "STABILE" otherwise;
the four concrete spec instances evaluate accordingly. -/
theorem C6_volume_classification (cv av hf lf : ℚ) :
    (∀ a : Option ℚ, generate_volume_signal none a hf lf =
      "Dati Volume non disponibili") ∧
    (∀ c : Option ℚ, generate_volume_signal c none hf lf =
      "Dati Volume non disponibili") ∧
    (av ≤ 0 → generate_volume_signal (some cv) (some av) hf lf = "STABILE") ∧
    (0 < av → (generate_volume_signal (some cv) (some av) hf lf = "RIALZISTA" ↔
      cv > av * hf)) ∧
    (0 < av → (generate_volume_signal (some cv) (some av) hf lf = "RIBASSISTA" ↔
      cv ≤ av * hf ∧ cv < av * lf)) ∧
    (0 < av → (generate_volume_signal (some cv) (some av) hf lf = "STABILE" ↔
      cv ≤ av * hf ∧ av * lf ≤ cv)) ∧
    generate_volume_signal (some 151) (some 100) (3/2) (7/10) = "RIALZISTA" ∧
    generate_volume_signal (some 70) (some 100) (3/2) (7/10) = "STABILE" ∧
    generate_volume_signal (some (699/10)) (some 100) (3/2) (7/10) = "RIBASSISTA" ∧
    generate_volume_signal (some 50) (some 0) (3/2) (7/10) = "STABILE" := by
  refine ⟨fun a => ?_, fun c => ?_, fun hav => ?_, fun hav => ?_, fun hav => ?_,
    fun hav => ?_, ?_, ?_, ?_, ?_⟩
  · cases a <;> rfl
  · cases c <;> rfl
  · simp only [generate_volume_signal]
    rw [if_pos hav]
  · rw [gvs_eval_pos cv av hf lf hav]
    constructor
    · intro hb
      by_contra hc1
      rw [if_neg hc1] at hb
      by_cases hc2 : cv < av * lf
      · rw [if_pos hc2] at hb
        exact absurd hb (by decide)
      · rw [if_neg hc2] at hb
        exact absurd hb (by decide)
    · intro hc1
      rw [if_pos hc1]
  · rw [gvs_eval_pos cv av hf lf hav]
    constructor
    · intro hb
      by_cases hc1 : cv > av * hf
      · rw [if_pos hc1] at hb
        exact absurd hb (by decide)
      · rw [if_neg hc1] at hb
        by_cases hc2 : cv < av * lf
        · exact ⟨not_lt.1 hc1, hc2⟩
        · rw [if_neg hc2] at hb
          exact absurd hb (by decide)
    · rintro ⟨hle, hlt⟩
      rw [if_neg (not_lt.2 hle), if_pos hlt]
  · rw [gvs_eval_pos cv av hf lf hav]
    constructor
    · intro hb
      by_cases hc1 : cv > av * hf
      · rw [if_pos hc1] at hb
        exact absurd hb (by decide)
      · by_cases hc2 : cv < av * lf
        · rw [if_neg hc1, if_pos hc2] at hb
          exact absurd hb (by decide)
        · exact ⟨not_lt.1 hc1, not_lt.1 hc2⟩
    · rintro ⟨hle, hge⟩
      rw [if_neg (not_lt.2 hle), if_neg (not_lt.2 hge)]
  · simp only [generate_volume_signal]
    norm_num
  · simp only [generate_volume_signal]
    norm_num
  · simp only [generate_volume_signal]
    norm_num
  · simp only [generate_volume_signal]
    norm_num

/-- Witness for C6 (amended): current volume 151 against average 100
with high factor 1.5 classifies as high volume. -/
theorem C6_volume_classification_witness :
    generate_volume_signal (some 151) (some 100) (3/2) (7/10) = "RIALZISTA" :=
  ((C6_volume_classification 151 100 (3/2) (7/10)).2.2.2.1
    (by norm_num)).2 (by norm_num)

/-- Claim C7: `get_moving_averages` returns the `(none, none)` pair for
every available series whenever the periods are invalid (non-positive
or short above long) — independently of the data — and also whenever
fewer than `long_period` candles are available; in both cases nothing
else is returned. -/
theorem C7_validation (available : List Kline) (short_period long_period : Int) :
    (short_period ≤ 0 ∨ long_period ≤ 0 ∨ short_period > long_period →
      get_moving_averages available short_period long_period = (none, none)) ∧
    ((available.length : Int) < long_period →
      get_moving_averages available short_period long_period = (none, none)) := by
  constructor
  · intro hv
    simp only [get_moving_averages]
    rw [if_pos hv]
  · intro hlen
    by_cases hv : short_period ≤ 0 ∨ long_period ≤ 0 ∨ short_period > long_period
    · simp only [get_moving_averages]
      rw [if_pos hv]
    · have hfl : (fetchLast available long_period).length = available.length := by
        simp only [fetchLast, List.length_drop]
        omega
      simp only [get_moving_averages]
      rw [if_neg hv, if_pos (by rw [hfl]; exact hlen)]

/-- Witness for C7: a short period of 0 is rejected on the empty
series. -/
theorem C7_validation_witness : get_moving_averages [] 0 5 = (none, none) :=
  (C7_validation [] 0 5).1 (Or.inl le_rfl)

/-- Claim C8: the malformed-record policy is asymmetric.  A window
containing a candle whose close fails to parse makes
`get_moving_averages` return the unavailable pair, and a window whose
closed part contains a candle with an unparseable volume makes
`get_average_historical_volume` return `none`; the breakout scan
instead skips the malformed rows and still classifies the current
price against the extremes of the well-formed rows alone. -/
theorem C8_malformed_policy :
    (∀ (available : List Kline) (short_period long_period : Int) (k : Kline),
        k ∈ fetchLast available long_period → k.close = none →
        get_moving_averages available short_period long_period = (none, none)) ∧
    (∀ (available : List Kline) (lookback_period : Int) (k : Kline),
        k ∈ (fetchLast available (lookback_period + 1)).dropLast → k.volume = none →
        get_average_historical_volume available lookback_period = none) ∧
    (∀ (available : List Kline) (p : ℚ) (lookback_period : Int),
        0 < lookback_period → lookback_period ≤ (available.length : Int) →
        generate_breakout_signal available (some p) lookback_period =
          classify_breakout p
            (foldExtremes ((fetchLast available lookback_period).filter wellFormedB)).1
            (foldExtremes ((fetchLast available lookback_period).filter wellFormedB)).2) := by
  refine ⟨?_, ?_, ?_⟩
  · intro available short_period long_period k hk hkc
    simp only [get_moving_averages]
    split
    · rfl
    · split
      · rfl
      · rw [parseAll_none_of_mem Kline.close _ k hk hkc]
  · intro available lookback_period k _ _
    exact gavh_eq_none available lookback_period
  · intro available p lookback_period h1 h2
    have hfl : (fetchLast available lookback_period).length = lookback_period.toNat :=
      fetchLast_length _ _ (by omega)
    have h3 : ¬ ((fetchLast available lookback_period).length : Int) < lookback_period := by
      rw [hfl]; omega
    rw [gbs_eval available p lookback_period h1 h3,
      show foldExtremes ((fetchLast available lookback_period).filter wellFormedB) =
          foldExtremes (fetchLast available lookback_period) from
        foldl_stepExtreme_filter _ _]

/-- Witness for C8: a 2-candle window whose second candle has an
unparseable close makes the SMA computation fail whole. -/
theorem C8_malformed_policy_witness : get_moving_averages c8Available 1 2 = (none, none) :=
  C8_malformed_policy.1 c8Available 1 2 c8Bad (by simp [fetchLast, c8Available]) rfl

/-- Claim C9: when every row of the lookback window fails to parse its
high or its low, the extremes keep their sentinel initial values 0 and
+inf, so any available current price `p > 0` produces the bullish
breakout label even though no valid data was seen. -/
theorem C9_all_malformed_bullish (available : List Kline) (p : ℚ)
    (lookback_period : Int)
    (h1 : 0 < lookback_period)
    (h2 : (available.length : Int) = lookback_period)
    (h3 : ∀ k ∈ available, k.high = none ∨ k.low = none)
    (h4 : 0 < p) :
    generate_breakout_signal available (some p) lookback_period =
      "Breakout Rialzista" := by
  have hfe : fetchLast available lookback_period = available :=
    fetchLast_of_length_eq available lookback_period h2
  have hlen : ¬ ((fetchLast available lookback_period).length : Int) < lookback_period := by
    rw [hfe]; omega
  rw [gbs_eval available p lookback_period h1 hlen, hfe,
    show foldExtremes available = ((0 : ℚ), (⊤ : WithTop ℚ)) from
      foldl_stepExtreme_const available (0, ⊤)
        (fun k hk => wellFormedB_eq_false k (h3 k hk))]
  simp only [classify_breakout]
  rw [if_pos h4]

/-- Witness for C9: a 3-row window of unparseable rows with current
price 1. -/
theorem C9_all_malformed_bullish_witness :
    generate_breakout_signal c9Available (some 1) 3 = "Breakout Rialzista" :=
  C9_all_malformed_bullish c9Available 1 3 (by norm_num)
    (by simp [c9Available]) (by decide) (by norm_num)

/-- Claim C10: with equal short and long periods and at least that many
candles available, the two components of `get_moving_averages` are
equal, and feeding the pair to the crossover classifier yields "Hold"
for any threshold `t ≥ 0` whenever the common mean is nonzero. -/
theorem C10_equal_periods (available : List Kline) (n : Int) (t : ℚ)
    (h1 : 0 < n) (h2 : n ≤ (available.length : Int)) (ht : 0 ≤ t) :
    (get_moving_averages available n n).1 = (get_moving_averages available n n).2 ∧
    ∀ m : ℚ, (get_moving_averages available n n).1 = some m → m ≠ 0 →
      generate_crossover_signal (get_moving_averages available n n).1
        (get_moving_averages available n n).2 t = "Hold" := by
  have hfl : (fetchLast available n).length = n.toNat := fetchLast_length _ _ (by omega)
  have h3 : ¬ ((fetchLast available n).length : Int) < n := by rw [hfl]; omega
  cases hp : parseAll Kline.close (fetchLast available n) with
  | none =>
    have hres : get_moving_averages available n n = (none, none) := by
      simp only [get_moving_averages, hp]
      rw [if_neg (by omega), if_neg h3]
    rw [hres]
    exact ⟨rfl, fun m hm => absurd hm (by simp)⟩
  | some cp =>
    have hcl : cp.length = n.toNat := by
      rw [parseAll_length Kline.close _ cp hp, hfl]
    have hdrop : cp.drop (cp.length - n.toNat) = cp := by
      rw [hcl, Nat.sub_self, List.drop_zero]
    have hres := gma_eval available n n cp h1 le_rfl h3 hp
    rw [hdrop] at hres
    rw [hres]
    refine ⟨rfl, ?_⟩
    intro m hm hm0
    have hm1 : some (cp.sum / (cp.length : ℚ)) = some m := hm
    have hm2 := Option.some.inj hm1
    subst hm2
    simp only [generate_crossover_signal]
    rw [if_neg hm0,
      if_neg (by rw [sub_self, abs_zero, zero_div, zero_mul]; exact not_lt.2 ht)]

/-- Witness for C10: closes 2, 4, 6 with both periods 3 give the pair
(4, 4) and the crossover signal "Hold" at threshold 0. -/
theorem C10_equal_periods_witness :
    generate_crossover_signal (get_moving_averages c10Available 3 3).1
      (get_moving_averages c10Available 3 3).2 0 = "Hold" := by
  have h := C10_equal_periods c10Available 3 0 (by norm_num)
    (by simp [c10Available]) le_rfl
  have hv : (get_moving_averages c10Available 3 3).1 = some 4 := by
    simp only [get_moving_averages, fetchLast, parseAll, c10Available, closeKline]
    norm_num
  exact h.2 4 hv (by norm_num)
